import Mathlib

/-!
Verification of the MMCd-Go specification against a shallow embedding of the
program. The Go sources are embedded as executable Lean definitions:

* bytes are `Nat` values (with explicit `< 256` bounds where they matter),
* the serial transport is abstracted as the list of bytes it will deliver
  within the relevant read deadline, plus a trace of bus events
  (send / receive / flush) recorded by each protocol operation,
* Go `(T, error)` returns become `Except String T`,
* `time.Time` values are embedded as their integer nanosecond count.

Each claim theorem states the property over these embedded definitions.
-/

namespace MMCd

/-- A bus-level transport action performed by a protocol operation.
`send b` is one byte written to the serial line, `recv b` one byte read
from it, and `flush` a discard of the OS input buffer
(`conn.Send` / `conn.Receive` / `conn.Flush` in the Go source). -/
inductive BusEvent where
  | send (b : Nat)
  | recv (b : Nat)
  | flush
  deriving DecidableEq, Repr

/-- Embeds `ECU.QuerySensor` from `internal/protocol` (part_004).
`input` abstracts the transport: the bytes the serial line delivers before
the 500 ms read deadline expires (`Receive`-level errors are not modelled;
the deadline shows up as `input` simply ending).  Returns the Go result
together with the trace of bus events the call performed, in order.

Source shape: reject `addr >= 0xC0` before any bus access; otherwise send
the address byte, loop reading until two bytes arrived; on short read flush
and fail with a timeout error; on echo mismatch (first byte not equal to
the address) flush and fail; on success return the second byte. -/
def querySensor (addr : Nat) (input : List Nat) : Except String Nat × List BusEvent :=
  if addr ≥ 0xC0 then
    (Except.error "address is in command range (>=0xC0), refusing to poll", [])
  else
    match input with
    | e :: d :: _ =>
      if e = addr then
        (Except.ok d, [BusEvent.send addr, BusEvent.recv e, BusEvent.recv d])
      else
        (Except.error "echo mismatch",
         [BusEvent.send addr, BusEvent.recv e, BusEvent.recv d, BusEvent.flush])
    | _ =>
      (Except.error "timeout reading response",
       BusEvent.send addr :: (input.map BusEvent.recv ++ [BusEvent.flush]))

/-- Embeds the `validCommandAddrs` whitelist map from `internal/protocol`
(part_004): the DTC-erase address `0xCA` and the twelve actuator-test
addresses `0xF1`–`0xFC`. -/
def validCommandAddrs (b : Nat) : Bool :=
  b = 0xCA ||
  b = 0xF1 || b = 0xF2 || b = 0xF3 || b = 0xF4 ||
  b = 0xF5 || b = 0xF6 || b = 0xF7 || b = 0xF8 ||
  b = 0xF9 || b = 0xFA || b = 0xFB || b = 0xFC

/-- Embeds `ECU.SendCommand` from `internal/protocol` (part_004).
`timeout` is the caller-supplied result deadline in nanoseconds; as with
`querySensor`, the transport is abstracted by `input`, the byte sequence
delivered across the echo window and the result window, so `timeout` does
not influence the abstract result (it only scales the real-time window
that `input` stands for).

Source shape: reject any command not in `validCommandAddrs` before any bus
access; otherwise flush stale input, send the command byte, read a 1-byte
echo within 500 ms (flush + fail on timeout or mismatch), then read a
1-byte result within `timeout` (flush + fail on timeout), returning the
raw result byte. -/
def sendCommand (cmd : Nat) (timeout : Nat) (input : List Nat) :
    Except String Nat × List BusEvent :=
  let _ := timeout
  if !validCommandAddrs cmd then
    (Except.error "command is not a known ECU command address", [])
  else
    match input with
    | [] =>
      (Except.error "timeout reading echo",
       [BusEvent.flush, BusEvent.send cmd, BusEvent.flush])
    | e :: rest =>
      if e ≠ cmd then
        (Except.error "command echo mismatch",
         [BusEvent.flush, BusEvent.send cmd, BusEvent.recv e, BusEvent.flush])
      else
        match rest with
        | [] =>
          (Except.error "timeout waiting for result",
           [BusEvent.flush, BusEvent.send cmd, BusEvent.recv e, BusEvent.flush])
        | r :: _ =>
          (Except.ok r,
           [BusEvent.flush, BusEvent.send cmd, BusEvent.recv e, BusEvent.recv r])

/-- Embeds `sensor.Definition` from `internal/sensor/definitions.go`.  Only
the fields read by the verified code paths are embedded; the Go struct's
display fields (`Description`, `Unit`) and its conversion function are never
consulted by any of the embedded operations. -/
structure Definition where
  addr : Nat
  slug : String
  exists_ : Bool
  computed : Bool
  deriving DecidableEq, Repr

/-- Embeds `sensor.Sample`: a timestamp (nanoseconds, Go `time.Time`), the
32-bit presence bitmask `DataPresent` and the 32-byte `RawData` array
(embedded as a list of length 32). -/
structure Sample where
  time : Int
  dataPresent : Nat
  rawData : List Nat
  deriving DecidableEq, Repr

/-- Embeds `Sample.HasData`: `s.DataPresent & (1 << idx) != 0`. -/
def Sample.hasData (s : Sample) (idx : Nat) : Bool :=
  s.dataPresent &&& (1 <<< idx) != 0

/-- Embeds `Sample.SetData`: store the raw value and set the presence bit.
Go writes into a fixed 32-byte array (panicking above index 31); `List.set`
is identical for every in-range index, and all embedded callers stay in
range. -/
def Sample.setData (s : Sample) (idx : Nat) (value : Nat) : Sample :=
  { s with
    rawData := s.rawData.set idx value,
    dataPresent := s.dataPresent ||| (1 <<< idx) }

/-- Embeds `sensor.DefaultDefinitions` from `internal/sensor/definitions.go`:
the canonical 32-slot table.  Slots 23–31 do not exist; slots 24–31 carry the
literal slug `"00"` the Go code formats for them. -/
def defaultDefinitions : List Definition :=
  [⟨0xFF, "", false, false⟩,
   ⟨0x00, "FLG0", true, false⟩,
   ⟨0x02, "FLG2", true, false⟩,
   ⟨0x06, "TIMA", true, false⟩,
   ⟨0x07, "COOL", true, false⟩,
   ⟨0x0C, "FTRL", true, false⟩,
   ⟨0x0D, "FTRM", true, false⟩,
   ⟨0x0E, "FTRH", true, false⟩,
   ⟨0x0F, "FTO2", true, false⟩,
   ⟨0x12, "EGRT", true, false⟩,
   ⟨0x13, "O2-R", true, false⟩,
   ⟨0x14, "BATT", true, false⟩,
   ⟨0x15, "BARO", true, false⟩,
   ⟨0x16, "ISC", true, false⟩,
   ⟨0x17, "TPS", true, false⟩,
   ⟨0x1A, "MAFS", true, false⟩,
   ⟨0x1D, "ACLE", true, false⟩,
   ⟨0x21, "RPM", true, false⟩,
   ⟨0x26, "KNCK", true, false⟩,
   ⟨0x29, "INJP", true, false⟩,
   ⟨0xFF, "INJD", true, true⟩,
   ⟨0x3A, "AIRT", true, false⟩,
   ⟨0x3E, "O2-F", true, false⟩,
   ⟨0x00, "", false, false⟩,
   ⟨0x00, "00", false, false⟩,
   ⟨0x00, "00", false, false⟩,
   ⟨0x00, "00", false, false⟩,
   ⟨0x00, "00", false, false⟩,
   ⟨0x00, "00", false, false⟩,
   ⟨0x00, "00", false, false⟩,
   ⟨0x00, "00", false, false⟩,
   ⟨0x00, "00", false, false⟩]

/-- Embeds the slug-scanning loop at the top of `Sample.ComputeDerivatives`
(`internal/cli/test.go`, sensor package part): walk the definition table,
recording the index of the `"RPM"`, `"INJP"` and `"INJD"` slugs
(later occurrences overwrite earlier ones, as in the Go `for`/`switch`),
with `-1` meaning not found. -/
def scanSlugsAux : List Definition → Int → Int × Int × Int → Int × Int × Int
  | [], _, acc => acc
  | d :: rest, i, (r, p, j) =>
    scanSlugsAux rest (i + 1)
      (if d.slug = "RPM" then (i, p, j)
       else if d.slug = "INJP" then (r, i, j)
       else if d.slug = "INJD" then (r, p, i)
       else (r, p, j))

/-- The three slug indices (`rpmIdx`, `injpIdx`, `injdIdx`) found by
`ComputeDerivatives`, each initialized to `-1`. -/
def scanSlugs (defs : List Definition) : Int × Int × Int :=
  scanSlugsAux defs 0 (-1, -1, -1)

/-- Embeds `Sample.ComputeDerivatives`: if any of the three slugs is missing
return the sample unchanged; if both source slots are present, set the INJD
slot to `(INJP_raw * RPM_raw) / 117` capped at 255.  Go computes the product
in `int32`; both factors are bytes, so the product is below `2^16` and `Nat`
arithmetic coincides, and the cap makes the final `byte(v)` conversion
exact. -/
def Sample.computeDerivatives (s : Sample) (defs : List Definition) : Sample :=
  let scanned := scanSlugs defs
  let rpmIdx := scanned.1
  let injpIdx := scanned.2.1
  let injdIdx := scanned.2.2
  if rpmIdx < 0 ∨ injpIdx < 0 ∨ injdIdx < 0 then s
  else if s.hasData rpmIdx.toNat && s.hasData injpIdx.toNat then
    let v := s.rawData.getD injpIdx.toNat 0 * s.rawData.getD rpmIdx.toNat 0 / 117
    let v := if v > 255 then 255 else v
    s.setData injdIdx.toNat v
  else s

/-- Embeds the body of the polling loop in `ECU.PollSensors`
(`internal/protocol`, part_004) for one index: skip it if out of range,
not existing, computed, or carrying the sentinel address 0xFF; otherwise
issue the wire query for its address, skipping (only) this slot if the
query fails and storing the byte on success.  `query` abstracts the
outcome of `e.QuerySensor(def.Addr)`. -/
def pollSensorsStep (defs : List Definition) (query : Nat → Except String Nat)
    (sample : Sample) (idx : Int) : Sample :=
  if idx < 0 ∨ (defs.length : Int) ≤ idx then sample
  else
    let d := defs.getD idx.toNat ⟨0, "", false, false⟩
    if d.exists_ = false ∨ d.computed = true ∨ d.addr = 0xFF then sample
    else
      match query d.addr with
      | Except.error _ => sample
      | Except.ok data => sample.setData idx.toNat data

/-- Embeds `ECU.PollSensors` from `internal/protocol` (part_004): start from
the zero `sensor.Sample` stamped with the current time, run the loop body
over the requested indices, then run `ComputeDerivatives`.  The function has
no error return path in the source; the embedding mirrors Go's
`(Sample, error)` with `Except String Sample`, its only branch producing
`.ok`. -/
def pollSensors (defs : List Definition) (query : Nat → Except String Nat)
    (now : Int) (indices : List Int) : Except String Sample :=
  let init : Sample := { time := now, dataPresent := 0, rawData := List.replicate 32 0 }
  Except.ok ((indices.foldl (pollSensorsStep defs query) init).computeDerivatives defs)

/-- Embeds `protocol.DTCCode` from `internal/protocol/dtc.go`: a bit index,
a short fault code and a human-readable description. -/
structure DTCCode where
  bit : Nat
  code : String
  description : String
  deriving DecidableEq, Repr

/-- Embeds `dtcTable` from `internal/protocol/dtc.go`: the fixed 16-entry
fault table, in bit order 0–15. -/
def dtcTable : List DTCCode :=
  [⟨0, "11", "Oxygen sensor"⟩,
   ⟨1, "12", "Intake air flow sensor"⟩,
   ⟨2, "13", "Intake air temperature sensor"⟩,
   ⟨3, "14", "Throttle position sensor"⟩,
   ⟨4, "15", "ISC motor position sensor"⟩,
   ⟨5, "21", "Engine coolant temperature sensor"⟩,
   ⟨6, "22", "Engine speed sensor"⟩,
   ⟨7, "23", "TDC sensor"⟩,
   ⟨8, "24", "Vehicle speed sensor"⟩,
   ⟨9, "25", "Barometric pressure sensor"⟩,
   ⟨10, "31", "Knock sensor"⟩,
   ⟨11, "41", "Injector circuit"⟩,
   ⟨12, "42", "Fuel pump relay"⟩,
   ⟨13, "43", "EGR"⟩,
   ⟨14, "44", "Ignition coil"⟩,
   ⟨15, "36", "Ignition circuit"⟩]

/-- Embeds `decodeDTCs` from `internal/protocol/dtc.go`: loop bit indices
0–15 in order, appending the table entry for each bit set in the bitmap.
It is a pure function of the bitmap: its only inputs are the bitmap and the
fixed table. -/
def decodeDTCs (bitmap : Nat) : List DTCCode :=
  (List.range 16).foldl
    (fun codes i =>
      if bitmap &&& (1 <<< i) != 0 then codes ++ [dtcTable.getD i ⟨0, "", ""⟩]
      else codes)
    []

/-- Modelled from the spec: the sampling engine's fixed watchdog threshold
of 20 consecutive poll errors.  The `Logger.pollLoop` variant carrying the
watchdog, the error/disconnect subscriber lists and the `Stats` counters is
missing from the checked-in sources — the `internal/logger/logger.go`
present predates it, while `logger_test.go` and the architecture notes
reference `watchdogThreshold`, `OnError`, `OnDisconnect` and `Stats` — so
the loop is modelled from the spec here. -/
def watchdogThreshold : Nat := 20

/-- Modelled from the spec: the observable per-session state of the
sampling engine's poll loop — the consecutive-error counter, the cumulative
error and sample counters, the number of error and disconnect notifications
delivered, and whether the loop has terminated. -/
structure LoopState where
  consecutiveErrors : Nat
  totalErrors : Nat
  totalSamples : Nat
  errorNotifications : Nat
  disconnectNotifications : Nat
  stopped : Bool
  deriving DecidableEq, Repr

/-- Modelled from the spec: one tick of the poll loop, driven by the poll
outcome.  On error: increment the total-error and consecutive-error
counters, notify error subscribers, and if the consecutive count reaches
the watchdog threshold, notify disconnect subscribers once and terminate
the loop.  On success: increment the total-sample counter and reset the
consecutive-error counter exactly to zero.  A terminated loop takes no
further steps. -/
def loopTick (s : LoopState) (ok : Bool) : LoopState :=
  if s.stopped then s
  else if ok then
    { s with totalSamples := s.totalSamples + 1, consecutiveErrors := 0 }
  else
    let ce := s.consecutiveErrors + 1
    if watchdogThreshold ≤ ce then
      { s with totalErrors := s.totalErrors + 1, consecutiveErrors := ce,
               errorNotifications := s.errorNotifications + 1,
               disconnectNotifications := s.disconnectNotifications + 1,
               stopped := true }
    else
      { s with totalErrors := s.totalErrors + 1, consecutiveErrors := ce,
               errorNotifications := s.errorNotifications + 1 }

/-- Modelled from the spec: the loop state at session start — all counters
zero, loop live. -/
def initialLoopState : LoopState := ⟨0, 0, 0, 0, 0, false⟩

/-- Modelled from the spec: the poll loop run over a finite sequence of
tick outcomes (`true` = successful poll, `false` = poll error), from
session start. -/
def runLoop (outcomes : List Bool) : LoopState :=
  outcomes.foldl loopTick initialLoopState

/-- Embeds `binary.LittleEndian.PutUint16`: the two little-endian bytes of
a 16-bit value. -/
def putUint16LE (v : Nat) : List Nat := [v % 256, v / 256 % 256]

/-- Embeds `binary.LittleEndian.PutUint32`: the four little-endian bytes of
a 32-bit value. -/
def putUint32LE (v : Nat) : List Nat :=
  [v % 256, v / 2 ^ 8 % 256, v / 2 ^ 16 % 256, v / 2 ^ 24 % 256]

/-- Embeds `binary.LittleEndian.PutUint64`: the eight little-endian bytes
of a 64-bit value. -/
def putUint64LE (v : Nat) : List Nat :=
  [v % 256, v / 2 ^ 8 % 256, v / 2 ^ 16 % 256, v / 2 ^ 24 % 256,
   v / 2 ^ 32 % 256, v / 2 ^ 40 % 256, v / 2 ^ 48 % 256, v / 2 ^ 56 % 256]

/-- Embeds `binary.LittleEndian.Uint16`. -/
def readUint16LE (b0 b1 : Nat) : Nat := b0 + 2 ^ 8 * b1

/-- Embeds `binary.LittleEndian.Uint32`. -/
def readUint32LE (b0 b1 b2 b3 : Nat) : Nat :=
  b0 + 2 ^ 8 * b1 + 2 ^ 16 * b2 + 2 ^ 24 * b3

/-- Embeds `binary.LittleEndian.Uint64`. -/
def readUint64LE (b0 b1 b2 b3 b4 b5 b6 b7 : Nat) : Nat :=
  b0 + 2 ^ 8 * b1 + 2 ^ 16 * b2 + 2 ^ 24 * b3 +
  2 ^ 32 * b4 + 2 ^ 40 * b5 + 2 ^ 48 * b6 + 2 ^ 56 * b7

/-- Go's `uint64(t)` two's-complement cast of an `int64` timestamp. -/
def int64ToUint64 (t : Int) : Nat := (t % 2 ^ 64).toNat

/-- Go's `int64(v)` reinterpretation of a `uint64`. -/
def uint64ToInt64 (v : Nat) : Int :=
  if v < 2 ^ 63 then (v : Int) else (v : Int) - 2 ^ 64

/-- Embeds the `BinaryWriter` state from `internal/logger`: the bytes
written to the `.mmcd` file so far and the running sample count. -/
structure BinaryWriter where
  file : List Nat
  sampleCount : Nat
  deriving DecidableEq, Repr

/-- Embeds `NewBinaryWriter`: write the 16-byte header — magic `"MMCD"`
(bytes 4D 4D 43 44), version 1, the unit-system byte, the LE16 count of
logged slot indices, the LE32 zero sample-count placeholder and 4 reserved
zero bytes — followed by the index table, one byte (`byte(idx)`) per
logged slot index. -/
def newBinaryWriter (indices : List Nat) (units : Nat) : BinaryWriter :=
  { file := [0x4D, 0x4D, 0x43, 0x44, 1, units % 256] ++ putUint16LE indices.length ++
            putUint32LE 0 ++ [0, 0, 0, 0] ++ indices.map (· % 256),
    sampleCount := 0 }

/-- Embeds the 48-byte sample record layout written by
`BinaryWriter.WriteSample`: LE64 `UnixNano` timestamp (two's complement),
LE32 presence mask, 4 padding bytes, then the 32-byte raw array. -/
def encodeSample (s : Sample) : List Nat :=
  putUint64LE (int64ToUint64 s.time) ++ putUint32LE s.dataPresent ++
  [0, 0, 0, 0] ++ s.rawData

/-- Embeds `BinaryWriter.WriteSample`: append one fixed-size record and
bump the sample count. -/
def BinaryWriter.writeSample (bw : BinaryWriter) (s : Sample) : BinaryWriter :=
  { file := bw.file ++ encodeSample s, sampleCount := bw.sampleCount + 1 }

/-- Embeds `BinaryWriter.Close`: seek to header offset 8 and overwrite the
4-byte sample-count field with the true count, leaving every other byte in
place; returns the final file contents. -/
def BinaryWriter.close (bw : BinaryWriter) : List Nat :=
  bw.file.take 8 ++ putUint32LE bw.sampleCount ++ bw.file.drop 12

/-- Embeds the parsed `BinaryLog` structure from `internal/logger`. -/
structure BinaryLog where
  version : Nat
  units : Nat
  indices : List Nat
  sampleCount : Nat
  samples : List Sample
  deriving DecidableEq, Repr

/-- Embeds the record decoding inside `ReadBinaryLog`: LE64 timestamp
(reinterpreted as a signed `int64`), LE32 presence mask, then the 32 raw
bytes at offsets 16–47 of the record. -/
def decodeSample (b : List Nat) : Sample :=
  { time := uint64ToInt64 (readUint64LE (b.getD 0 0) (b.getD 1 0) (b.getD 2 0)
      (b.getD 3 0) (b.getD 4 0) (b.getD 5 0) (b.getD 6 0) (b.getD 7 0)),
    dataPresent := readUint32LE (b.getD 8 0) (b.getD 9 0) (b.getD 10 0) (b.getD 11 0),
    rawData := (b.drop 16).take 32 }

/-- Embeds the sample-reading loop of `ReadBinaryLog`: consume 48-byte
records until fewer than 48 bytes remain (a trailing partial record stops
the loop rather than failing, as with Go's `io.ReadFull` returning
`ErrUnexpectedEOF`). -/
def readSamples (bytes : List Nat) : List Sample :=
  if h : 48 ≤ bytes.length then
    decodeSample (bytes.take 48) :: readSamples (bytes.drop 48)
  else []
termination_by bytes.length
decreasing_by
  simp only [List.length_drop]
  omega

/-- Embeds `ReadBinaryLog`: fail unless a full 16-byte header is present
and carries the `"MMCD"` magic; read the version, unit and sample-count
fields and the index table, then decode records until end of file. -/
def readBinaryLog (bytes : List Nat) : Except String BinaryLog :=
  if bytes.length < 16 then Except.error "failed to read header"
  else
    let header := bytes.take 16
    if header.take 4 ≠ [0x4D, 0x4D, 0x43, 0x44] then
      Except.error "not an MMCD binary log (bad magic)"
    else
      let sensorCount := readUint16LE (header.getD 6 0) (header.getD 7 0)
      let rest := bytes.drop 16
      if rest.length < sensorCount then Except.error "failed to read index table"
      else
        Except.ok
          { version := header.getD 4 0,
            units := header.getD 5 0,
            indices := rest.take sensorCount,
            sampleCount := readUint32LE (header.getD 8 0) (header.getD 9 0)
              (header.getD 10 0) (header.getD 11 0),
            samples := readSamples (rest.drop sensorCount) }

/-- Well-formedness of an embedded sample as produced by the Go program: a
32-byte raw array of bytes, a 32-bit presence mask, and a timestamp in
`int64` range. -/
def WFSample (s : Sample) : Prop :=
  s.rawData.length = 32 ∧ (∀ b ∈ s.rawData, b < 256) ∧
  s.dataPresent < 2 ^ 32 ∧ -(2 ^ 63) ≤ s.time ∧ s.time < 2 ^ 63

instance (s : Sample) : Decidable (WFSample s) := by
  unfold WFSample
  infer_instance

/-- The complete writer session from the tests: create the file, append
every sample, close. -/
def writeBinaryLog (indices : List Nat) (units : Nat) (samples : List Sample) :
    List Nat :=
  (samples.foldl BinaryWriter.writeSample (newBinaryWriter indices units)).close

/-- Embeds the `palmOSEpochOffset` constant from `internal/logger` (the PDB
reader, part_008): seconds between the PalmOS epoch (1904-01-01 UTC) and
the Unix epoch. -/
def palmOSEpochOffset : Int := 2082844800

/-- The proleptic-Gregorian calendar year of a count of days since the Unix
epoch (floor division), the civil-calendar computation Go's `time` package
performs for `Time.Year` (modelled in UTC). -/
def civilYearFromDays (z0 : Int) : Int :=
  let z := z0 + 719468
  let era := z.fdiv 146097
  let doe := z - era * 146097
  let yoe := (doe - doe.fdiv 1460 + doe.fdiv 36524 - doe.fdiv 146096).fdiv 365
  let y := yoe + era * 400
  let doy := doe - (365 * yoe + yoe.fdiv 4 - yoe.fdiv 100)
  let mp := (5 * doy + 2).fdiv 153
  let m := mp + (if mp < 10 then 3 else -9)
  if m ≤ 2 then y + 1 else y

/-- The calendar year of a Unix timestamp in seconds:
`time.Unix(sec, 0).Year()` in UTC. -/
def yearOfUnixSec (sec : Int) : Int := civilYearFromDays (sec.fdiv 86400)

/-- Embeds `binary.BigEndian` 32-bit decoding (Motorola 68K order) used for
the `graphSampleRaw` fields. -/
def readBE32 (b0 b1 b2 b3 : Nat) : Nat :=
  2 ^ 24 * b0 + 2 ^ 16 * b1 + 2 ^ 8 * b2 + b3

/-- Embeds the decoding of one raw 40-byte `graphSampleRaw` record entry:
big-endian 32-bit PalmOS timestamp, big-endian 32-bit presence mask, then
the 32 raw data bytes: returns `(Time, DataPresent, Data)`. -/
def decodeGraphSample (b : List Nat) : Nat × Nat × List Nat :=
  (readBE32 (b.getD 0 0) (b.getD 1 0) (b.getD 2 0) (b.getD 3 0),
   readBE32 (b.getD 4 0) (b.getD 5 0) (b.getD 6 0) (b.getD 7 0),
   (b.drop 8).take 32)

/-- Embeds the per-entry filter chain of `ParsePDB` (part_008), in source
order: skip when the timestamp or presence mask is all-zero; skip the
all-ones presence mask (uninitialized-memory artifact); skip when the
decoded calendar year falls outside 1995–2030. -/
def keepGraphSample (time32 dataPresent : Nat) : Bool :=
  if time32 = 0 ∨ dataPresent = 0 then false
  else if dataPresent = 0xFFFFFFFF then false
  else if yearOfUnixSec ((time32 : Int) - palmOSEpochOffset) < 1995 ∨
          2030 < yearOfUnixSec ((time32 : Int) - palmOSEpochOffset) then false
  else true

/-- Embeds the inner sample loop of `ParsePDB` for one record's data area:
read consecutive 40-byte big-endian entries (stopping at a short read, as
`binary.Read` does at the end of the record), keep those passing the
filter, and build each kept entry's `sensor.Sample` with
`time.Unix(Time - palmOSEpochOffset, 0)` (embedded in nanoseconds). -/
def parseGraphSamples (bytes : List Nat) : Nat → List Sample
  | 0 => []
  | n + 1 =>
    if bytes.length < 40 then []
    else
      let r := decodeGraphSample (bytes.take 40)
      let rest := parseGraphSamples (bytes.drop 40) n
      if keepGraphSample r.1 r.2.1 then
        Sample.mk (((r.1 : Int) - palmOSEpochOffset) * 1000000000) r.2.1 r.2.2 :: rest
      else rest

/-- `hasData` reads exactly one bit of the presence mask. -/
theorem hasData_eq_testBit (s : Sample) (i : Nat) :
    s.hasData i = s.dataPresent.testBit i := by
  simp only [Sample.hasData, Nat.one_shiftLeft, Nat.and_two_pow]
  cases h : s.dataPresent.testBit i <;>
    simp [h, pow_ne_zero i (by decide : (2:ℕ) ≠ 0)]

/-- C2: for every address byte `a ≥ 0xC0`, `QuerySensor a` fails and performs
no transport send, receive or flush (its bus-event trace is empty); for every
`a ≤ 0xBF` the guard does not reject it — the call goes on to touch the bus,
its first transport action being the send of `a`. -/
theorem querySensor_addr_guard (a : Nat) (input : List Nat) :
    (0xC0 ≤ a →
      (querySensor a input).1.isOk = false ∧ (querySensor a input).2 = []) ∧
    (a ≤ 0xBF →
      (querySensor a input).2.head? = some (BusEvent.send a)) := by
  constructor
  · intro h
    simp [querySensor, h, Except.isOk, Except.toBool]
  · intro h
    have hlt : ¬ (0xC0 ≤ a) := by omega
    simp only [querySensor, ge_iff_le, if_neg hlt]
    match input with
    | [] => rfl
    | [e] => rfl
    | e :: d :: rest =>
      by_cases he : e = a <;> simp [he]

/-- Witness for `querySensor_addr_guard` at the concrete addresses 0xC0
(rejected, no bus traffic) and 0x21 (guard passes, send happens). -/
theorem querySensor_addr_guard_witness :
    ((querySensor 0xC0 [0x21, 0x40]).1.isOk = false ∧
     (querySensor 0xC0 [0x21, 0x40]).2 = []) ∧
    (querySensor 0x21 [0x21, 0x40]).2.head? = some (BusEvent.send 0x21) :=
  ⟨(querySensor_addr_guard 0xC0 [0x21, 0x40]).1 (by decide),
   (querySensor_addr_guard 0x21 [0x21, 0x40]).2 (by decide)⟩

/-- C3: `validCommandAddrs` holds exactly for the thirteen whitelisted bytes
(0xCA and 0xF1–0xFC); any command byte outside the whitelist makes
`SendCommand` fail with an empty bus-event trace (no send, receive or
flush), and every whitelisted byte passes the guard — the exchange reaches
the bus, starting with the stale-input flush. -/
theorem sendCommand_whitelist_guard (c t : Nat) (input : List Nat) :
    (validCommandAddrs c = true ↔ (c = 0xCA ∨ (0xF1 ≤ c ∧ c ≤ 0xFC))) ∧
    (validCommandAddrs c = false →
      (sendCommand c t input).1.isOk = false ∧ (sendCommand c t input).2 = []) ∧
    (validCommandAddrs c = true →
      (sendCommand c t input).2.head? = some BusEvent.flush) := by
  refine ⟨?_, ?_, ?_⟩
  · simp only [validCommandAddrs, Bool.or_eq_true, decide_eq_true_eq]
    omega
  · intro h
    simp [sendCommand, h, Except.isOk, Except.toBool]
  · intro h
    simp only [sendCommand, h, Bool.not_true, Bool.false_eq_true, if_false]
    match input with
    | [] => rfl
    | e :: rest =>
      by_cases he : e = c
      · subst he
        match rest with
        | [] => simp
        | r :: more => simp
      · simp [he]

/-- Witness for `sendCommand_whitelist_guard` at the whitelisted byte 0xF6
and the non-whitelisted byte 0x10. -/
theorem sendCommand_whitelist_guard_witness :
    (validCommandAddrs 0xF6 = true ↔ (0xF6 = 0xCA ∨ (0xF1 ≤ 0xF6 ∧ 0xF6 ≤ 0xFC))) ∧
    ((sendCommand 0x10 700 [0x10, 0x00]).1.isOk = false ∧
     (sendCommand 0x10 700 [0x10, 0x00]).2 = []) ∧
    (sendCommand 0xF6 700 [0xF6, 0x00]).2.head? = some BusEvent.flush :=
  ⟨(sendCommand_whitelist_guard 0xF6 700 [0xF6, 0x00]).1,
   (sendCommand_whitelist_guard 0x10 700 [0x10, 0x00]).2.1 (by decide),
   (sendCommand_whitelist_guard 0xF6 700 [0xF6, 0x00]).2.2 (by decide)⟩

/-- C4: when `QuerySensor a` (valid address) sends `a` and the transport
delivers the two bytes `e`, `d`: if `e = a` the call returns `d` with no
error and no flush; if `e ≠ a` it fails with the echo-mismatch error, no
data value, and the input buffer is flushed. -/
theorem querySensor_echo (a e d : Nat) (rest : List Nat) (ha : a < 0xC0) :
    (e = a →
      querySensor a (e :: d :: rest) =
        (Except.ok d, [BusEvent.send a, BusEvent.recv a, BusEvent.recv d])) ∧
    (e ≠ a →
      querySensor a (e :: d :: rest) =
        (Except.error "echo mismatch",
         [BusEvent.send a, BusEvent.recv e, BusEvent.recv d, BusEvent.flush]) ∧
      BusEvent.flush ∈ (querySensor a (e :: d :: rest)).2) := by
  have hlt : ¬ (0xC0 ≤ a) := by omega
  constructor
  · intro he
    subst he
    simp [querySensor, hlt]
  · intro he
    simp only [querySensor, ge_iff_le, if_neg hlt, if_neg he]
    exact ⟨by simp, by simp⟩

/-- Witness for `querySensor_echo` at the spec's concrete scenario:
query 0x21 receiving [0x21, 0x40] returns 0x40; receiving [0x22, 0x40]
fails with the buffer flushed. -/
theorem querySensor_echo_witness :
    querySensor 0x21 [0x21, 0x40] =
      (Except.ok 0x40, [BusEvent.send 0x21, BusEvent.recv 0x21, BusEvent.recv 0x40]) ∧
    (querySensor 0x21 [0x22, 0x40] =
      (Except.error "echo mismatch",
       [BusEvent.send 0x21, BusEvent.recv 0x22, BusEvent.recv 0x40, BusEvent.flush]) ∧
     BusEvent.flush ∈ (querySensor 0x21 [0x22, 0x40]).2) :=
  ⟨(querySensor_echo 0x21 0x21 0x40 [] (by decide)).1 rfl,
   (querySensor_echo 0x21 0x22 0x40 [] (by decide)).2 (by decide)⟩

/-- On the canonical table the slug scan of `ComputeDerivatives` finds
RPM at slot 17, INJP at slot 19 and INJD at slot 20. -/
theorem scanSlugs_default : scanSlugs defaultDefinitions = (17, 19, 20) := by
  decide

/-- `ComputeDerivatives` over the canonical table, expressed directly:
nothing happens unless both source slots are present, in which case slot 20
receives the capped duty-cycle byte. -/
theorem computeDerivatives_default_eq (s : Sample) :
    s.computeDerivatives defaultDefinitions =
      (if s.hasData 17 && s.hasData 19 then
        s.setData 20
          (if s.rawData.getD 19 0 * s.rawData.getD 17 0 / 117 > 255 then 255
           else s.rawData.getD 19 0 * s.rawData.getD 17 0 / 117)
       else s) := rfl

/-- C5: for every sample over the canonical table with engine speed
(slot 17, raw `E`) and injector pulse width (slot 19, raw `P`) both
present, `ComputeDerivatives` sets the derived duty-cycle slot 20 to
`min 255 (P * E / 117)` and marks its presence bit; if either source slot
is absent the sample is returned unchanged, so slot 20 keeps its presence
bit and raw byte. -/
theorem computeDerivatives_duty_cycle (s : Sample) (h32 : s.rawData.length = 32) :
    (s.hasData 17 = true ∧ s.hasData 19 = true →
      (s.computeDerivatives defaultDefinitions).rawData.getD 20 0 =
        min 255 (s.rawData.getD 19 0 * s.rawData.getD 17 0 / 117) ∧
      (s.computeDerivatives defaultDefinitions).hasData 20 = true) ∧
    (¬(s.hasData 17 = true ∧ s.hasData 19 = true) →
      s.computeDerivatives defaultDefinitions = s) := by
  have hmin : ∀ x : Nat, (if x > 255 then 255 else x) = min 255 x := by
    intro x
    rw [Nat.min_def]
    split <;> split <;> omega
  constructor
  · rintro ⟨h17, h19⟩
    rw [computeDerivatives_default_eq]
    simp only [h17, h19, Bool.and_self, if_true]
    refine ⟨?_, ?_⟩
    · simp only [Sample.setData, List.getD_eq_getElem?_getD]
      rw [List.getElem?_set_self (by omega)]
      simp [hmin]
    · simp only [Sample.setData, hasData_eq_testBit, Nat.testBit_lor, Bool.or_eq_true]
      exact Or.inr (by decide)
  · intro h
    have hb : (s.hasData 17 && s.hasData 19) = false := by
      cases h17 : s.hasData 17 <;> cases h19 : s.hasData 19 <;> simp_all
    rw [computeDerivatives_default_eq, hb]
    simp

/-- Witness for `computeDerivatives_duty_cycle`: the sample with
`E = 128` (slot 17) and `P = 50` (slot 19) present gets duty-cycle byte
`min 255 (50 * 128 / 117) = 54` in slot 20, with its presence bit set. -/
theorem computeDerivatives_duty_cycle_witness :
    ((Sample.mk 0 655360 (((List.replicate 32 0).set 17 128).set 19 50)).computeDerivatives
        defaultDefinitions).rawData.getD 20 0 =
      min 255 ((((List.replicate 32 0).set 17 128).set 19 50).getD 19 0 *
               (((List.replicate 32 0).set 17 128).set 19 50).getD 17 0 / 117) ∧
    ((Sample.mk 0 655360 (((List.replicate 32 0).set 17 128).set 19 50)).computeDerivatives
        defaultDefinitions).hasData 20 = true :=
  (computeDerivatives_duty_cycle
      (Sample.mk 0 655360 (((List.replicate 32 0).set 17 128).set 19 50))
      (by decide)).1 ⟨by decide, by decide⟩

/-- A sample with an empty presence mask is a fixed point of
`ComputeDerivatives` (no source slot can be present). -/
theorem computeDerivatives_of_empty (s : Sample) (h : s.dataPresent = 0)
    (defs : List Definition) : s.computeDerivatives defs = s := by
  have hfalse : ∀ i, s.hasData i = false := by
    intro i
    simp [Sample.hasData, h, Nat.zero_and]
  unfold Sample.computeDerivatives
  simp [hfalse]

/-- When the wire query fails, the loop body leaves the sample untouched
(as it does for every skipped slot). -/
theorem pollSensorsStep_of_fail (defs : List Definition)
    (query : Nat → Except String Nat)
    (hfail : ∀ a, (query a).isOk = false)
    (sample : Sample) (idx : Int) :
    pollSensorsStep defs query sample idx = sample := by
  unfold pollSensorsStep
  split
  · rfl
  · dsimp only
    split
    · rfl
    · cases hq : query ((defs.getD idx.toNat ⟨0, "", false, false⟩).addr) with
      | error m => rfl
      | ok data =>
        have hok := hfail ((defs.getD idx.toNat ⟨0, "", false, false⟩).addr)
        rw [hq] at hok
        simp [Except.isOk, Except.toBool] at hok

/-- Folding a function that never changes its accumulator returns the
accumulator. -/
theorem foldl_of_fixed {α β : Type} {f : α → β → α} (hf : ∀ a b, f a b = a) :
    ∀ (l : List β) (a : α), l.foldl f a = a := by
  intro l
  induction l with
  | nil => intro a; rfl
  | cons x xs ih =>
    intro a
    rw [List.foldl_cons, hf]
    exact ih a

/-- C10: `PollSensors` surfaces no error for any index list — its only
return path is a successful sample — and when every wire query fails the
returned sample simply has an empty presence mask (each failing slot only
loses its presence bit; here all of them do). -/
theorem pollSensors_never_errors (defs : List Definition)
    (query : Nat → Except String Nat) (now : Int) (indices : List Int) :
    (∃ s, pollSensors defs query now indices = Except.ok s) ∧
    ((∀ a, (query a).isOk = false) →
      ∃ s, pollSensors defs query now indices = Except.ok s ∧ s.dataPresent = 0) := by
  refine ⟨⟨_, rfl⟩, ?_⟩
  intro hfail
  have hres : pollSensors defs query now indices =
      Except.ok (Sample.mk now 0 (List.replicate 32 0)) := by
    unfold pollSensors
    simp only [foldl_of_fixed (pollSensorsStep_of_fail defs query hfail)]
    rw [computeDerivatives_of_empty _ rfl]
  exact ⟨_, hres, rfl⟩

/-- Witness for `pollSensors_never_errors`: polling slots 17 and 19 over the
canonical table with a query that always fails yields a successful, fully
absent sample. -/
theorem pollSensors_never_errors_witness :
    ∃ s, pollSensors defaultDefinitions (fun _ => Except.error "persistent failure")
          0 [17, 19] = Except.ok s ∧ s.dataPresent = 0 :=
  (pollSensors_never_errors defaultDefinitions
      (fun _ => Except.error "persistent failure") 0 [17, 19]).2 (fun _ => rfl)

/-- Conditional-append folds are filtered maps. -/
theorem foldl_append_if_eq_filter_map {α β : Type} (p : α → Bool) (f : α → β) :
    ∀ (l : List α) (acc : List β),
      l.foldl (fun cs i => if p i then cs ++ [f i] else cs) acc =
        acc ++ (l.filter p).map f := by
  intro l
  induction l with
  | nil => intro acc; simp
  | cons x xs ih =>
    intro acc
    rw [List.foldl_cons]
    cases hx : p x <;> simp [hx, ih]

/-- C9: for every 16-bit bitmap, the DTC decoder returns exactly the
entries of the fixed 16-entry table whose bit index is set in the bitmap,
in ascending bit order, each entry being the table's (bit, code,
description) record; decoding 0 yields the empty list. -/
theorem decodeDTCs_spec (b : Nat) (hb : b < 65536) :
    decodeDTCs b =
      ((List.range 16).filter (fun i => b.testBit i)).map
        (fun i => dtcTable.getD i ⟨0, "", ""⟩) ∧
    (decodeDTCs b).Pairwise (fun x y => x.bit < y.bit) ∧
    (∀ e ∈ decodeDTCs b, b.testBit e.bit = true ∧
        e = dtcTable.getD e.bit ⟨0, "", ""⟩) ∧
    decodeDTCs 0 = [] := by
  have hbit : ∀ i, i < 16 → (dtcTable.getD i ⟨0, "", ""⟩).bit = i := by decide
  have hfilter : ∀ i : Nat, (b &&& (1 <<< i) != 0) = b.testBit i := by
    intro i
    have := hasData_eq_testBit (Sample.mk 0 b []) i
    simpa [Sample.hasData] using this
  have heq : decodeDTCs b =
      ((List.range 16).filter (fun i => b.testBit i)).map
        (fun i => dtcTable.getD i ⟨0, "", ""⟩) := by
    unfold decodeDTCs
    rw [foldl_append_if_eq_filter_map (fun i => b &&& (1 <<< i) != 0)
          (fun i => dtcTable.getD i ⟨0, "", ""⟩) (List.range 16) []]
    simp only [List.nil_append]
    congr 1
    apply List.filter_congr
    intro i _
    exact hfilter i
  refine ⟨heq, ?_, ?_, by decide⟩
  · rw [heq, List.pairwise_map]
    refine List.Pairwise.imp_of_mem ?_
      ((List.pairwise_lt_range 16).filter (fun i => b.testBit i))
    intro i j hi hj hij
    have hi16 : i < 16 := List.mem_range.mp (List.mem_of_mem_filter hi)
    have hj16 : j < 16 := List.mem_range.mp (List.mem_of_mem_filter hj)
    rw [hbit i hi16, hbit j hj16]
    exact hij
  · intro e he
    rw [heq] at he
    obtain ⟨i, hi, rfl⟩ := List.mem_map.mp he
    have hi16 : i < 16 := List.mem_range.mp (List.mem_of_mem_filter hi)
    have hset : b.testBit i = true := by
      have := List.of_mem_filter hi
      simpa using this
    rw [hbit i hi16]
    exact ⟨hset, rfl⟩

/-- Witness for `decodeDTCs_spec` at the bitmap 0x0401 (bits 0 and 10 set:
codes 11 and 31). -/
theorem decodeDTCs_spec_witness :
    decodeDTCs 0x0401 =
      ((List.range 16).filter (fun i => Nat.testBit 0x0401 i)).map
        (fun i => dtcTable.getD i ⟨0, "", ""⟩) ∧
    (decodeDTCs 0x0401).Pairwise (fun x y => x.bit < y.bit) ∧
    (∀ e ∈ decodeDTCs 0x0401, Nat.testBit 0x0401 e.bit = true ∧
        e = dtcTable.getD e.bit ⟨0, "", ""⟩) ∧
    decodeDTCs 0 = [] :=
  decodeDTCs_spec 0x0401 (by decide)

/-- A tick preserves the invariant that exactly one disconnect
notification has fired iff the loop has terminated. -/
theorem loopTick_disconnect_inv (s : LoopState) (ok : Bool)
    (h : s.disconnectNotifications = if s.stopped then 1 else 0) :
    (loopTick s ok).disconnectNotifications =
      if (loopTick s ok).stopped then 1 else 0 := by
  unfold loopTick
  by_cases hstop : s.stopped = true
  · simp [hstop, h]
  · rw [if_neg hstop] at h
    rw [if_neg hstop]
    cases ok
    · simp only [Bool.false_eq_true, if_false]
      by_cases hth : watchdogThreshold ≤ s.consecutiveErrors + 1
      · simp [hth, h]
      · simp [hth, h, hstop]
    · simp [h, hstop]

/-- The disconnect invariant holds after any run of ticks. -/
theorem runFrom_disconnect_inv (outcomes : List Bool) :
    ∀ s : LoopState, s.disconnectNotifications = (if s.stopped then 1 else 0) →
      (outcomes.foldl loopTick s).disconnectNotifications =
        if (outcomes.foldl loopTick s).stopped then 1 else 0 := by
  induction outcomes with
  | nil => intro s h; exact h
  | cons x xs ih =>
    intro s h
    rw [List.foldl_cons]
    exact ih (loopTick s x) (loopTick_disconnect_inv s x h)

/-- C1: in the sampling engine's poll loop, (a) after any outcome sequence
exactly one disconnect notification has fired iff the loop has terminated
(so never more than one); (b) twenty consecutive poll failures from session
start terminate the loop with exactly one disconnect notification; (c) a
terminated loop takes no further steps; (d) for any failure streak shorter
than the threshold, one successful poll resets the consecutive-error
counter exactly to zero with the loop still live and no disconnect
notification fired. -/
theorem pollLoop_watchdog :
    (∀ outcomes : List Bool,
      (runLoop outcomes).disconnectNotifications =
        if (runLoop outcomes).stopped then 1 else 0) ∧
    ((runLoop (List.replicate watchdogThreshold false)).stopped = true ∧
     (runLoop (List.replicate watchdogThreshold false)).disconnectNotifications = 1) ∧
    (∀ (s : LoopState) (ok : Bool), s.stopped = true → loopTick s ok = s) ∧
    (∀ k : Nat, k < watchdogThreshold →
      (runLoop (List.replicate k false ++ [true])).consecutiveErrors = 0 ∧
      (runLoop (List.replicate k false ++ [true])).disconnectNotifications = 0 ∧
      (runLoop (List.replicate k false ++ [true])).stopped = false) := by
  refine ⟨?_, by decide, ?_, by decide⟩
  · intro outcomes
    exact runFrom_disconnect_inv outcomes initialLoopState rfl
  · intro s ok h
    unfold loopTick
    rw [if_pos h]

/-- Witness for `pollLoop_watchdog`: its hypothesised parts applied at a
terminated state and at a five-failure streak followed by a success. -/
theorem pollLoop_watchdog_witness :
    loopTick ⟨20, 20, 0, 20, 1, true⟩ false = ⟨20, 20, 0, 20, 1, true⟩ ∧
    ((runLoop (List.replicate 5 false ++ [true])).consecutiveErrors = 0 ∧
     (runLoop (List.replicate 5 false ++ [true])).disconnectNotifications = 0 ∧
     (runLoop (List.replicate 5 false ++ [true])).stopped = false) :=
  ⟨pollLoop_watchdog.2.2.1 ⟨20, 20, 0, 20, 1, true⟩ false rfl,
   pollLoop_watchdog.2.2.2 5 (by decide)⟩

/-- Decoding inverts encoding for any well-formed sample: the raw array and
presence mask come back byte-identical and the timestamp comes back exactly
(hence within the 1 ms tolerance). -/
theorem decodeSample_encodeSample (s : Sample) (hwf : WFSample s) :
    decodeSample (encodeSample s) = s := by
  obtain ⟨h32, hbytes, hdp, ht1, ht2⟩ := hwf
  cases s with
  | mk time dataPresent rawData =>
    simp only at h32 hdp ht1 ht2
    unfold decodeSample encodeSample putUint64LE putUint32LE
    simp only [List.cons_append, List.nil_append, List.getD_cons_zero,
      List.getD_cons_succ, Sample.mk.injEq]
    refine ⟨?_, ?_, ?_⟩
    · unfold int64ToUint64 uint64ToInt64 readUint64LE
      have hv : (time % 2 ^ 64).toNat < 2 ^ 64 := by omega
      have hread : (time % 2 ^ 64).toNat % 256 +
          2 ^ 8 * ((time % 2 ^ 64).toNat / 2 ^ 8 % 256) +
          2 ^ 16 * ((time % 2 ^ 64).toNat / 2 ^ 16 % 256) +
          2 ^ 24 * ((time % 2 ^ 64).toNat / 2 ^ 24 % 256) +
          2 ^ 32 * ((time % 2 ^ 64).toNat / 2 ^ 32 % 256) +
          2 ^ 40 * ((time % 2 ^ 64).toNat / 2 ^ 40 % 256) +
          2 ^ 48 * ((time % 2 ^ 64).toNat / 2 ^ 48 % 256) +
          2 ^ 56 * ((time % 2 ^ 64).toNat / 2 ^ 56 % 256) = (time % 2 ^ 64).toNat := by
        omega
      rw [hread]
      split <;> omega
    · unfold readUint32LE
      omega
    · simp only [List.drop_succ_cons, List.drop_zero]
      exact h32 ▸ List.take_length rawData

/-- Every record of a well-formed sample is exactly 48 bytes. -/
theorem encodeSample_length (s : Sample) (h32 : s.rawData.length = 32) :
    (encodeSample s).length = 48 := by
  simp [encodeSample, putUint64LE, putUint32LE, h32]

/-- The record-reading loop recovers exactly the encoded samples. -/
theorem readSamples_flatten (samples : List Sample)
    (hwf : ∀ s ∈ samples, WFSample s) :
    readSamples ((samples.map encodeSample).flatten) = samples := by
  induction samples with
  | nil =>
    rw [readSamples]
    simp
  | cons s rest ih =>
    have hs : WFSample s := hwf s (List.mem_cons_self s rest)
    have h48 : (encodeSample s).length = 48 := encodeSample_length s hs.1
    rw [List.map_cons, List.flatten_cons, readSamples]
    rw [dif_pos (by simp [h48, List.length_append])]
    rw [List.take_left' h48, List.drop_left' h48]
    rw [decodeSample_encodeSample s hs]
    rw [ih (fun x hx => hwf x (List.mem_cons_of_mem s hx))]

/-- Appending samples through `WriteSample` appends their records to the
file and counts them. -/
theorem foldl_writeSample (samples : List Sample) :
    ∀ bw : BinaryWriter,
      (samples.foldl BinaryWriter.writeSample bw).file =
        bw.file ++ (samples.map encodeSample).flatten ∧
      (samples.foldl BinaryWriter.writeSample bw).sampleCount =
        bw.sampleCount + samples.length := by
  induction samples with
  | nil => intro bw; simp
  | cons s rest ih =>
    intro bw
    rw [List.foldl_cons]
    obtain ⟨h1, h2⟩ := ih (bw.writeSample s)
    refine ⟨?_, ?_⟩
    · rw [h1]
      simp [BinaryWriter.writeSample, List.append_assoc]
    · rw [h2]
      simp [BinaryWriter.writeSample]
      omega

/-- The bytes of a finalized file: the header now carrying the true sample
count, the index table, and the 48-byte records in order. -/
theorem writeBinaryLog_eq (indices : List Nat) (units : Nat) (samples : List Sample) :
    writeBinaryLog indices units samples =
      [0x4D, 0x4D, 0x43, 0x44, 1, units % 256] ++ putUint16LE indices.length ++
      putUint32LE samples.length ++ [0, 0, 0, 0] ++
      (indices.map (· % 256) ++ (samples.map encodeSample).flatten) := by
  unfold writeBinaryLog BinaryWriter.close
  obtain ⟨h1, h2⟩ := foldl_writeSample samples (newBinaryWriter indices units)
  rw [h1, h2]
  show List.take 8 ((newBinaryWriter indices units).file ++ _) ++
      putUint32LE (0 + samples.length) ++ _ = _
  rw [Nat.zero_add]
  rfl

/-- Evaluation of `ReadBinaryLog` on a file of the written shape: a valid
header, an index table whose length matches the header's sensor count, and
a record region. -/
theorem readBinaryLog_shape (u l0 l1 c0 c1 c2 c3 : Nat) (T R : List Nat)
    (hcount : readUint16LE l0 l1 = T.length) :
    readBinaryLog
        ([0x4D, 0x4D, 0x43, 0x44, 1, u, l0, l1, c0, c1, c2, c3, 0, 0, 0, 0] ++
          (T ++ R)) =
      Except.ok
        { version := 1, units := u, indices := T,
          sampleCount := readUint32LE c0 c1 c2 c3,
          samples := readSamples R } := by
  unfold readBinaryLog
  rw [if_neg (by
    simp only [List.length_append, List.length_cons, List.length_nil]
    omega)]
  simp only []
  have hmagic :
      (([0x4D, 0x4D, 0x43, 0x44, 1, u, l0, l1, c0, c1, c2, c3, 0, 0, 0, 0] ++
        (T ++ R)).take 16).take 4 = [0x4D, 0x4D, 0x43, 0x44] := rfl
  rw [if_neg (by rw [hmagic]; simp)]
  have h6 :
      (([0x4D, 0x4D, 0x43, 0x44, 1, u, l0, l1, c0, c1, c2, c3, 0, 0, 0, 0] ++
        (T ++ R)).take 16).getD 6 0 = l0 := rfl
  have h7 :
      (([0x4D, 0x4D, 0x43, 0x44, 1, u, l0, l1, c0, c1, c2, c3, 0, 0, 0, 0] ++
        (T ++ R)).take 16).getD 7 0 = l1 := rfl
  have h4 :
      (([0x4D, 0x4D, 0x43, 0x44, 1, u, l0, l1, c0, c1, c2, c3, 0, 0, 0, 0] ++
        (T ++ R)).take 16).getD 4 0 = 1 := rfl
  have h5 :
      (([0x4D, 0x4D, 0x43, 0x44, 1, u, l0, l1, c0, c1, c2, c3, 0, 0, 0, 0] ++
        (T ++ R)).take 16).getD 5 0 = u := rfl
  have h8 :
      (([0x4D, 0x4D, 0x43, 0x44, 1, u, l0, l1, c0, c1, c2, c3, 0, 0, 0, 0] ++
        (T ++ R)).take 16).getD 8 0 = c0 := rfl
  have h9 :
      (([0x4D, 0x4D, 0x43, 0x44, 1, u, l0, l1, c0, c1, c2, c3, 0, 0, 0, 0] ++
        (T ++ R)).take 16).getD 9 0 = c1 := rfl
  have h10 :
      (([0x4D, 0x4D, 0x43, 0x44, 1, u, l0, l1, c0, c1, c2, c3, 0, 0, 0, 0] ++
        (T ++ R)).take 16).getD 10 0 = c2 := rfl
  have h11 :
      (([0x4D, 0x4D, 0x43, 0x44, 1, u, l0, l1, c0, c1, c2, c3, 0, 0, 0, 0] ++
        (T ++ R)).take 16).getD 11 0 = c3 := rfl
  have hdrop :
      ([0x4D, 0x4D, 0x43, 0x44, 1, u, l0, l1, c0, c1, c2, c3, 0, 0, 0, 0] ++
        (T ++ R)).drop 16 = T ++ R := rfl
  rw [h4, h5, h6, h7, h8, h9, h10, h11, hdrop, hcount]
  rw [if_neg (by
    simp only [List.length_append]
    omega)]
  rw [List.take_left T R, List.drop_left T R]

/-- C6: round-trip of the native binary log.  Writing any sequence of
well-formed samples with `WriteSample`, finalizing with `Close` and
reading the file back with `ReadBinaryLog` succeeds and yields exactly the
written samples — same count, byte-identical 32-byte raw arrays and 32-bit
presence masks, and timestamps recovered exactly (so certainly within the
claimed 1 ms tolerance). -/
theorem binaryLog_roundtrip (indices : List Nat) (units : Nat)
    (samples : List Sample)
    (hidx : indices.length < 2 ^ 16) (hwf : ∀ s ∈ samples, WFSample s) :
    ∃ log : BinaryLog,
      readBinaryLog (writeBinaryLog indices units samples) = Except.ok log ∧
      log.samples.length = samples.length ∧
      log.samples = samples := by
  have hcount : readUint16LE (indices.length % 256) (indices.length / 256 % 256) =
      (indices.map (· % 256)).length := by
    unfold readUint16LE
    rw [List.length_map]
    omega
  have hshape := readBinaryLog_shape (units % 256)
      (indices.length % 256) (indices.length / 256 % 256)
      (samples.length % 256) (samples.length / 2 ^ 8 % 256)
      (samples.length / 2 ^ 16 % 256) (samples.length / 2 ^ 24 % 256)
      (indices.map (· % 256)) ((samples.map encodeSample).flatten) hcount
  have hbytes : writeBinaryLog indices units samples =
      [0x4D, 0x4D, 0x43, 0x44, 1, units % 256,
       indices.length % 256, indices.length / 256 % 256,
       samples.length % 256, samples.length / 2 ^ 8 % 256,
       samples.length / 2 ^ 16 % 256, samples.length / 2 ^ 24 % 256,
       0, 0, 0, 0] ++
      (indices.map (· % 256) ++ (samples.map encodeSample).flatten) := by
    rw [writeBinaryLog_eq]
    rfl
  rw [hbytes, hshape]
  refine ⟨_, rfl, ?_, ?_⟩
  · rw [readSamples_flatten samples hwf]
  · exact readSamples_flatten samples hwf

/-- Witness for `binaryLog_roundtrip`: two concrete samples written with the
index table [4, 14, 17, 19] survive the round trip. -/
theorem binaryLog_roundtrip_witness :
    ∃ log : BinaryLog,
      readBinaryLog (writeBinaryLog [4, 14, 17, 19] 0
        [Sample.mk 1700000000000000000 0x00060010
          (((List.replicate 32 0).set 4 0x80).set 17 0x40),
         Sample.mk 1700000000100000000 0x00064010
          ((((List.replicate 32 0).set 4 0x82).set 14 0x80).set 17 0x42)]) =
        Except.ok log ∧
      log.samples.length =
        [Sample.mk 1700000000000000000 0x00060010
          (((List.replicate 32 0).set 4 0x80).set 17 0x40),
         Sample.mk 1700000000100000000 0x00064010
          ((((List.replicate 32 0).set 4 0x82).set 14 0x80).set 17 0x42)].length ∧
      log.samples =
        [Sample.mk 1700000000000000000 0x00060010
          (((List.replicate 32 0).set 4 0x80).set 17 0x40),
         Sample.mk 1700000000100000000 0x00064010
          ((((List.replicate 32 0).set 4 0x82).set 14 0x80).set 17 0x42)] :=
  binaryLog_roundtrip [4, 14, 17, 19] 0 _ (by decide) (by decide)

/-- C7: `Close` rewrites only the 4-byte sample-count field at header
offset 8.  For a writer that appended any sequence of samples: before
`Close` that field holds the zero placeholder written at creation; the
running count equals the number of `WriteSample` calls; `Close` preserves
the file length, stores the little-endian true count at bytes 8–11, and
leaves every byte outside offsets 8–11 — the rest of the header, the index
table and all appended records — exactly as written. -/
theorem binaryWriter_close_frame (indices : List Nat) (units : Nat)
    (samples : List Sample) :
    ((samples.foldl BinaryWriter.writeSample (newBinaryWriter indices units)).file.drop 8).take 4
        = [0, 0, 0, 0] ∧
    (samples.foldl BinaryWriter.writeSample (newBinaryWriter indices units)).sampleCount
        = samples.length ∧
    (writeBinaryLog indices units samples).length =
      (samples.foldl BinaryWriter.writeSample (newBinaryWriter indices units)).file.length ∧
    ((writeBinaryLog indices units samples).drop 8).take 4 = putUint32LE samples.length ∧
    (∀ i : Nat, i < 8 ∨ 12 ≤ i →
      (writeBinaryLog indices units samples)[i]? =
        (samples.foldl BinaryWriter.writeSample (newBinaryWriter indices units)).file[i]?) := by
  obtain ⟨h1, h2⟩ := foldl_writeSample samples (newBinaryWriter indices units)
  have hcount : (samples.foldl BinaryWriter.writeSample (newBinaryWriter indices units)).sampleCount
      = samples.length := by
    rw [h2]
    simp [newBinaryWriter]
  have hlen16 : 16 ≤
      (samples.foldl BinaryWriter.writeSample (newBinaryWriter indices units)).file.length := by
    rw [h1]
    simp only [newBinaryWriter, putUint16LE, putUint32LE, List.length_append,
      List.length_cons, List.length_nil]
    omega
  have htake8 : ((samples.foldl BinaryWriter.writeSample (newBinaryWriter indices units)).file.take 8).length = 8 := by
    rw [List.length_take]
    omega
  have hput4 : (putUint32LE samples.length).length = 4 := by
    simp [putUint32LE]
  have hclose : writeBinaryLog indices units samples =
      (samples.foldl BinaryWriter.writeSample (newBinaryWriter indices units)).file.take 8 ++
      (putUint32LE samples.length ++
       (samples.foldl BinaryWriter.writeSample (newBinaryWriter indices units)).file.drop 12) := by
    unfold writeBinaryLog BinaryWriter.close
    rw [hcount, List.append_assoc]
  refine ⟨?_, hcount, ?_, ?_, ?_⟩
  · rw [h1]
    rfl
  · rw [hclose]
    simp only [List.length_append, List.length_take, List.length_drop, hput4]
    omega
  · rw [hclose, List.drop_left' htake8, List.take_left' hput4]
  · intro i hi
    rw [hclose]
    rcases hi with hlt | hge
    · rw [List.getElem?_append_left (by omega : i < ((samples.foldl BinaryWriter.writeSample (newBinaryWriter indices units)).file.take 8).length)]
      exact List.getElem?_take_of_lt hlt
    · rw [List.getElem?_append_right (by omega : ((samples.foldl BinaryWriter.writeSample (newBinaryWriter indices units)).file.take 8).length ≤ i)]
      rw [htake8]
      rw [List.getElem?_append_right (by rw [hput4]; omega : (putUint32LE samples.length).length ≤ i - 8)]
      rw [hput4, List.getElem?_drop]
      congr 1
      omega

/-- Witness for `binaryWriter_close_frame`: applying the frame condition at
byte 0 (header magic) and byte 16 (first index-table byte) of a concrete
one-sample file. -/
theorem binaryWriter_close_frame_witness :
    (writeBinaryLog [17] 0 [Sample.mk 0 0 (List.replicate 32 0)])[0]? =
      ([Sample.mk 0 0 (List.replicate 32 0)].foldl BinaryWriter.writeSample
        (newBinaryWriter [17] 0)).file[0]? ∧
    (writeBinaryLog [17] 0 [Sample.mk 0 0 (List.replicate 32 0)])[16]? =
      ([Sample.mk 0 0 (List.replicate 32 0)].foldl BinaryWriter.writeSample
        (newBinaryWriter [17] 0)).file[16]? :=
  ⟨(binaryWriter_close_frame [17] 0 [Sample.mk 0 0 (List.replicate 32 0)]).2.2.2.2
      0 (Or.inl (by decide)),
   (binaryWriter_close_frame [17] 0 [Sample.mk 0 0 (List.replicate 32 0)]).2.2.2.2
      16 (Or.inr (by decide))⟩

/-- The source's filter chain equals the claim's single predicate: an entry
is kept iff its timestamp is nonzero, its mask is neither all-zero nor
all-ones, and its decoded year lies in 1995–2030. -/
theorem keepGraphSample_iff (t dp : Nat) :
    keepGraphSample t dp =
      decide (t ≠ 0 ∧ dp ≠ 0 ∧ dp ≠ 0xFFFFFFFF ∧
        1995 ≤ yearOfUnixSec ((t : Int) - palmOSEpochOffset) ∧
        yearOfUnixSec ((t : Int) - palmOSEpochOffset) ≤ 2030) := by
  unfold keepGraphSample
  split_ifs with h1 h2 h3
  · symm
    rw [decide_eq_false_iff_not]
    tauto
  · symm
    rw [decide_eq_false_iff_not]
    tauto
  · symm
    rw [decide_eq_false_iff_not]
    rintro ⟨-, -, -, hy1, hy2⟩
    rcases h3 with hlt | hgt
    · omega
    · omega
  · symm
    rw [decide_eq_true_eq]
    push_neg at h1 h3
    exact ⟨h1.1, h1.2, h2, by omega, by omega⟩

/-- C8: for a record area packed with 40-byte entries, the PDB reader's
sample loop keeps exactly the entries whose decoded fields pass the claim's
predicate — an entry with an all-zero timestamp, an all-zero presence mask,
the all-ones presence mask, or a decoded calendar year before 1995 or after
2030 is excluded, and every other decoded entry is included (in order, with
its decoded timestamp, mask and raw bytes). -/
theorem parsePDB_record_filter (entries : List (List Nat))
    (hlen : ∀ e ∈ entries, e.length = 40) :
    parseGraphSamples entries.flatten entries.length =
      ((entries.map decodeGraphSample).filter (fun r =>
          decide (r.1 ≠ 0 ∧ r.2.1 ≠ 0 ∧ r.2.1 ≠ 0xFFFFFFFF ∧
            1995 ≤ yearOfUnixSec ((r.1 : Int) - palmOSEpochOffset) ∧
            yearOfUnixSec ((r.1 : Int) - palmOSEpochOffset) ≤ 2030))).map
        (fun r => Sample.mk (((r.1 : Int) - palmOSEpochOffset) * 1000000000)
          r.2.1 r.2.2) := by
  induction entries with
  | nil => rfl
  | cons e rest ih =>
    have he : e.length = 40 := hlen e (List.mem_cons_self e rest)
    have hrest := ih (fun x hx => hlen x (List.mem_cons_of_mem e hx))
    simp only [List.flatten_cons, List.length_cons, parseGraphSamples]
    rw [if_neg (by simp only [List.length_append]; omega)]
    rw [List.take_left' he, List.drop_left' he, hrest]
    rw [List.map_cons, List.filter_cons]
    rw [keepGraphSample_iff]
    rw [apply_ite (List.map (fun r : Nat × Nat × List Nat =>
      Sample.mk (((r.1 : Int) - palmOSEpochOffset) * 1000000000) r.2.1 r.2.2))]
    split <;> rfl

/-- Witness for `parsePDB_record_filter`: a record area holding one valid
2003 entry (kept), one all-ones-mask entry and one all-zero entry (both
dropped). -/
theorem parsePDB_record_filter_witness :
    parseGraphSamples
        ([[0xBA, 0x37, 0xB4, 0x80, 0x00, 0x02, 0x00, 0x00] ++ List.replicate 32 7,
          [0xBA, 0x37, 0xB4, 0x80, 0xFF, 0xFF, 0xFF, 0xFF] ++ List.replicate 32 7,
          List.replicate 40 0].flatten)
        [[0xBA, 0x37, 0xB4, 0x80, 0x00, 0x02, 0x00, 0x00] ++ List.replicate 32 7,
          [0xBA, 0x37, 0xB4, 0x80, 0xFF, 0xFF, 0xFF, 0xFF] ++ List.replicate 32 7,
          List.replicate 40 0].length =
      (([[0xBA, 0x37, 0xB4, 0x80, 0x00, 0x02, 0x00, 0x00] ++ List.replicate 32 7,
          [0xBA, 0x37, 0xB4, 0x80, 0xFF, 0xFF, 0xFF, 0xFF] ++ List.replicate 32 7,
          List.replicate 40 0].map decodeGraphSample).filter (fun r =>
          decide (r.1 ≠ 0 ∧ r.2.1 ≠ 0 ∧ r.2.1 ≠ 0xFFFFFFFF ∧
            1995 ≤ yearOfUnixSec ((r.1 : Int) - palmOSEpochOffset) ∧
            yearOfUnixSec ((r.1 : Int) - palmOSEpochOffset) ≤ 2030))).map
        (fun r => Sample.mk (((r.1 : Int) - palmOSEpochOffset) * 1000000000)
          r.2.1 r.2.2) :=
  parsePDB_record_filter _ (by decide)

end MMCd
